import Mathlib

set_option maxRecDepth 4000

/-!
Verification of the Schema Aggregation and Query Dispatch subsystem of
raphtory_mcp.py: a shallow embedding of the Python module into Lean.

Python values flowing through the module (decoded GraphQL bodies, query
variables, resource arguments) are modelled by the inductive type Json.
Python operations that can raise are modelled in the Except PyErr monad.
-/

/-- A Python value as it occurs in this module: None, bool, int, str,
list, or dict (a dict is a finite association list of string keys kept in
insertion order, as Python dicts are). -/
inductive Json where
  | null
  | bool (b : Bool)
  | num (n : Int)
  | str (s : String)
  | arr (xs : List Json)
  | obj (fields : List (String × Json))

mutual

/-- Python equality on the values of Json. A bool never equals a str,
which is the comparison get_graph_schema performs on include_variants. -/
def beqJson : Json → Json → Bool
  | .null, .null => true
  | .bool a, .bool b => a == b
  | .num a, .num b => a == b
  | .str a, .str b => a == b
  | .arr xs, .arr ys => beqJsonList xs ys
  | .obj xs, .obj ys => beqJsonFields xs ys
  | _, _ => false

def beqJsonList : List Json → List Json → Bool
  | [], [] => true
  | x :: xs, y :: ys => beqJson x y && beqJsonList xs ys
  | _, _ => false

def beqJsonFields : List (String × Json) → List (String × Json) → Bool
  | [], [] => true
  | (k1, v1) :: xs, (k2, v2) :: ys => k1 == k2 && beqJson v1 v2 && beqJsonFields xs ys
  | _, _ => false

end

/-- First binding of a key in an association list, as a Python dict lookup. -/
def lookupKey (k : String) : List (String × Json) → Option Json
  | [] => none
  | (k2, v) :: rest => if k2 == k then some v else lookupKey k rest

/-- Python truthiness: None, False, 0, empty string, empty list and empty
dict are falsy; everything else is truthy. -/
def Json.truthy : Json → Bool
  | .null => false
  | .bool b => b
  | .num n => n != 0
  | .str s => s ≠ ""
  | .arr xs => !xs.isEmpty
  | .obj fs => !fs.isEmpty

/-- isinstance(x, dict). -/
def Json.isObj : Json → Bool
  | .obj _ => true
  | _ => false

def Json.hasKey (j : Json) (k : String) : Bool :=
  match j with
  | .obj fs => (lookupKey k fs).isSome
  | _ => false

/-- Code-point comparison of two character lists, lexicographic, as Python
compares strings. -/
def strLeChars : List Char → List Char → Bool
  | [], _ => true
  | _ :: _, [] => false
  | a :: as, b :: bs =>
    if a.toNat < b.toNat then true
    else if a.toNat = b.toNat then strLeChars as bs
    else false

def strLe (a b : String) : Bool := strLeChars a.data b.data

/-- The relation sorted(...) orders strings by. -/
def strLeP (a b : String) : Prop := strLe a b = true

instance : DecidableRel strLeP := fun a b => instDecidableEqBool (strLe a b) true

/-- Does the character list hay start with needle. -/
def strStarts : List Char → List Char → Bool
  | [], _ => true
  | _ :: _, [] => false
  | a :: as, b :: bs => a == b && strStarts as bs

/-- Does the character list hay contain needle as a contiguous run. -/
def strHas (needle : List Char) : List Char → Bool
  | [] => needle.isEmpty
  | b :: bs => strStarts needle (b :: bs) || strHas needle bs

/-- Python substring membership: needle in hay. -/
def substrB (needle hay : String) : Bool := strHas needle.data hay.data

/-- The Python exceptions this module can raise or swallow. -/
inductive PyErr where
  | keyError (k : String)
  | attributeError (msg : String)
  | typeError (msg : String)
  | valueError (msg : String)

/-- Python membership test k in j for a string k: key lookup on a dict,
substring search on a str, element search on a list; a TypeError on the
remaining non-container values. -/
def pyInStr (k : String) : Json → Except PyErr Bool
  | .obj fs => .ok ((lookupKey k fs).isSome)
  | .str s => .ok (substrB k s)
  | .arr xs => .ok (xs.any (fun x => beqJson x (.str k)))
  | _ => .error (.typeError "argument of type is not iterable")

/-- Python subscript j[k] for a string key k: dict lookup raising KeyError
when absent; a TypeError on every non-dict value. -/
def pyIndex (j : Json) (k : String) : Except PyErr Json :=
  match j with
  | .obj fs =>
    match lookupKey k fs with
    | some v => .ok v
    | none => .error (.keyError k)
  | _ => .error (.typeError "indices must be strings on a dict value")

/-- Python j.get(k, dflt): only dicts have the attribute get. -/
def pyGetD (j : Json) (k : String) (dflt : Json) : Except PyErr Json :=
  match j with
  | .obj fs => .ok ((lookupKey k fs).getD dflt)
  | _ => .error (.attributeError "object has no attribute get")

/-- Python iteration: a list yields its elements, a str its characters,
a dict its keys; other values are not iterable. -/
def pyIter : Json → Except PyErr (List Json)
  | .arr xs => .ok xs
  | .str s => .ok (s.data.map (fun c => Json.str (String.mk [c])))
  | .obj fs => .ok (fs.map (fun kv => Json.str kv.1))
  | _ => .error (.typeError "object is not iterable")

def containsJ (l : List Json) (v : Json) : Bool :=
  l.any (fun x => beqJson x v)

/-- set.add on a set represented as the list of its members in insertion
order: a value equal to a member already present is dropped. -/
def setAdd (s : List Json) (v : Json) : List Json :=
  if containsJ s v then s else s ++ [v]

def Json.asStr : Json → Option String
  | .str s => some s
  | _ => none

def Json.asInt : Json → Option Int
  | .num n => some n
  | _ => none

def sortStrs (l : List String) : List String :=
  l.insertionSort strLeP

def sortInts (l : List Int) : List Int :=
  l.insertionSort (fun a b => a ≤ b)

def asStrList : List Json → Option (List String)
  | [] => some []
  | j :: js =>
    match j.asStr with
    | some s => (asStrList js).map (fun ss => s :: ss)
    | none => none

def asIntList : List Json → Option (List Int)
  | [] => some []
  | j :: js =>
    match j.asInt with
    | some n => (asIntList js).map (fun ns => n :: ns)
    | none => none

/-- Python sorted(list(s)). The module only ever sorts scalar property
values; a homogeneous run of strings sorts by code points and a
homogeneous run of ints numerically, while mixing unorderable values
raises TypeError, as Python does. -/
def pySorted (xs : List Json) : Except PyErr (List Json) :=
  match asStrList xs with
  | some ss => .ok ((sortStrs ss).map Json.str)
  | none =>
    match asIntList xs with
    | some ns => .ok ((sortInts ns).map Json.num)
    | none =>
      if xs.length ≤ 1 then .ok xs
      else .error (.typeError "unorderable types in sorted")

/-- Python dict assignment d[k] = v: replaces the value in place when the
key is present, else appends the new key at the end. -/
def objSetFields (k : String) (v : Json) : List (String × Json) → List (String × Json)
  | [] => [(k, v)]
  | (k2, v2) :: rest =>
    if k2 == k then (k2, v) :: rest else (k2, v2) :: objSetFields k v rest

/-- Dict assignment lifted to Json; only ever applied to dict values. -/
def objSet (j : Json) (k : String) (v : Json) : Json :=
  match j with
  | .obj fs => .obj (objSetFields k v fs)
  | other => other

/-- Python del d[k] on a dict whose key is present. -/
def objDelFields (k : String) : List (String × Json) → List (String × Json)
  | [] => []
  | (k2, v2) :: rest =>
    if k2 == k then rest else (k2, v2) :: objDelFields k rest

def objDel (j : Json) (k : String) : Json :=
  match j with
  | .obj fs => .obj (objDelFields k fs)
  | other => other

/-- The request query_db builds: lines 34 and 39 of raphtory_mcp.py. -/
structure GqlRequest where
  method : String
  endpoint : String
  headers : List (String × String)
  body : Json

/-- The default value of the endpoint parameter of query_db. -/
def defaultEndpoint : String := "http://localhost:1736/"

/-- The keyword default of the variables parameter of query_db is None. -/
def defaultVariables : Json := Json.null

/-- Line 39: the POST request submitted by query_db, with the JSON body
holding the query and the variables (variables or another empty dict when
the argument is falsy) and a JSON content-type header. -/
def buildRequest (query : String) (endpoint : String) (varMap : Json) : GqlRequest :=
  { method := "POST"
    endpoint := endpoint
    headers := [("Content-Type", "application/json")]
    body := Json.obj
      [("query", Json.str query),
       ("variables", if varMap.truthy then varMap else Json.obj [])] }

/-- The network: given the built request, either the decoded response body
of response.json() or the message of the exception the round-trip raised.
The transport is an oracle parameter of every operation. -/
def Transport : Type := GqlRequest → Except String Json

/-- Lines 27 to 45: query_db. A successful round-trip returns the decoded
body verbatim; any exception is caught and collapsed into the string
Error: followed by the message of the exception. It never raises. -/
def query_db (transport : Transport) (query : String) (endpoint : String)
    (varMap : Json) : Json :=
  match transport (buildRequest query endpoint varMap) with
  | .ok data => data
  | .error e => Json.str ("Error: " ++ e)

/-- Lines 77 to 86: the node-list probe query of check_graph_exists with
graph_name substituted for the percent-s placeholder. -/
def verifyQuery (graph_name : String) : String :=
  "\n    \x7b\n      graph(path: \"" ++ graph_name ++
  "\") \x7b\n        nodes \x7b\n          list \x7b\n            name\n          \x7d\n        \x7d\n      \x7d\n    \x7d"

/-- Lines 73 to 93: check_graph_exists. Dispatches the probe query and
returns False when the test errors in result succeeds, else True. The
membership test is the Python in operator on the value query_db returned,
so it is a key lookup on a dict but a substring search on an error
string. -/
def check_graph_exists (transport : Transport) (graph_name : String) :
    Except PyErr Bool :=
  match pyInStr "errors" (query_db transport (verifyQuery graph_name) defaultEndpoint defaultVariables) with
  | .ok b => .ok (!b)
  | .error e => .error e

/-- Lines 105 to 129: the combined node-plus-edge schema query of
get_graph_schema. The second placeholder receives the word variants when
include_variants == "true" holds under Python equality, else the empty
string; include_variants is kept as a Python value since the declared
bool annotation and the string comparison disagree. -/
def schemaQuery (graph_name : String) (include_variants : Json) : String :=
  "\n    \x7b\n      graph(path: \"" ++ graph_name ++
  "\") \x7b\n        schema \x7b\n          nodes \x7b\n            properties \x7b\n              key\n              propertyType\n              " ++
  (if beqJson include_variants (Json.str "true") then "variants" else "") ++
  "\n            \x7d\n          \x7d\n        \x7d\n        edgeTypes: edges \x7b\n          list \x7b\n            properties \x7b\n              keys\n              values \x7b\n                value\n              \x7d\n            \x7d\n          \x7d\n        \x7d\n      \x7d\n    \x7d"

/-- Line 102: the short-circuit error object returned when the graph does
not exist. -/
def graphMissingError (graph_name : String) : Json :=
  Json.obj [("errors", Json.arr
    [Json.obj [("message", Json.str ("Graph " ++ graph_name ++ " does not exist"))]])]

/-- Lines 142 to 144: the body of the inner loop over properties values:
an item owning a value key contributes its value to the accumulating
set. -/
def processValue (a : List Json) (v : Json) : Except PyErr (List Json) := do
  let cv ← pyInStr "value" v
  if cv then
    let x ← pyIndex v "value"
    pure (setAdd a x)
  else
    pure a

/-- Lines 140 to 144: the body of the edge loop. An edge that passes the
two membership tests has each item of its properties values walked by
processValue. -/
def processEdge (acc : List Json) (edge : Json) : Except PyErr (List Json) := do
  let c1 ← pyInStr "properties" edge
  if c1 then
    let props1 ← pyIndex edge "properties"
    let c2 ← pyInStr "values" props1
    if c2 then
      let props2 ← pyIndex edge "properties"
      let vals ← pyIndex props2 "values"
      let items ← pyIter vals
      items.foldlM processValue acc
    else
      pure acc
  else
    pure acc

/-- Lines 133 to 151: the post-processing of the schema response. When the
response is a dict with a truthy data entry whose graph entry is truthy
and owns an edgeTypes key, the edge walk collects the unique relationship
values, the sorted set is written into the relationships entry of the
graph object, and the edgeTypes entry is deleted; the write-back through
the aliased nested dicts is made explicit. On every other shape the
response is returned untouched. Exceptions of the dynamic field accesses
propagate. -/
def processSchemaResult (schema_result : Json) : Except PyErr Json :=
  match schema_result with
  | .obj fields =>
    match lookupKey "data" fields with
    | some dataVal =>
      if dataVal.truthy then do
        let graph_data ← pyGetD dataVal "graph" (Json.obj [])
        if graph_data.truthy then do
          let hasET ← pyInStr "edgeTypes" graph_data
          if hasET then do
            let et ← pyIndex graph_data "edgeTypes"
            let edges ← pyGetD et "list" (Json.arr [])
            let items ← pyIter edges
            let rels ← items.foldlM processEdge []
            let sortedRels ← pySorted rels
            let graph2 := objSet graph_data "relationships" (Json.arr sortedRels)
            let graph3 := objDel graph2 "edgeTypes"
            pure (Json.obj (objSetFields "data" (objSet dataVal "graph" graph3) fields))
          else
            pure schema_result
        else
          pure schema_result
      else
        pure schema_result
    | none => pure schema_result
  | other => pure other

/-- Lines 98 to 151: get_graph_schema. Returns the result of the operation
together with the list of queries it dispatched through query_db, in
order. The existence probe runs first; when it reports False the local
error object is returned with no further dispatch; when it raises, the
exception propagates. -/
def get_graph_schema (transport : Transport) (graph_name : String)
    (include_variants : Json) : Except PyErr Json × List String :=
  match check_graph_exists transport graph_name with
  | .error e => (.error e, [verifyQuery graph_name])
  | .ok exists_ =>
    if !exists_ then
      (.ok (graphMissingError graph_name), [verifyQuery graph_name])
    else
      let q := schemaQuery graph_name include_variants
      (processSchemaResult (query_db transport q defaultEndpoint defaultVariables),
       [verifyQuery graph_name, q])

def lookupStr (k : String) : List (String × String) → Option String
  | [] => none
  | (k2, v) :: rest => if k2 == k then some v else lookupStr k rest

/-- Python str.format over a template, processed left to right: a doubled
brace is a literal brace, an open brace starts a replacement field whose
name is looked up among the keyword arguments (KeyError when absent), and
a lone closing brace is a ValueError. The second argument carries the
characters of the field name read so far, reversed; none means ordinary
text. -/
def formatChars (args : List (String × String)) :
    List Char → Option (List Char) → Except PyErr (List Char)
  | [], none => .ok []
  | [], some _ => .error (.valueError "Single brace encountered in format string")
  | '\x7b' :: '\x7b' :: rest, none =>
    match formatChars args rest none with
    | .ok t => .ok ('\x7b' :: t)
    | .error e => .error e
  | '\x7d' :: '\x7d' :: rest, none =>
    match formatChars args rest none with
    | .ok t => .ok ('\x7d' :: t)
    | .error e => .error e
  | '\x7b' :: rest, none => formatChars args rest (some [])
  | '\x7d' :: _, none => .error (.valueError "Single brace encountered in format string")
  | c :: rest, none =>
    match formatChars args rest none with
    | .ok t => .ok (c :: t)
    | .error e => .error e
  | '\x7d' :: rest, some acc =>
    match lookupStr (String.mk acc.reverse) args with
    | some v =>
      match formatChars args rest none with
      | .ok t => .ok (v.data ++ t)
      | .error e => .error e
    | none => .error (.keyError (String.mk acc.reverse))
  | c :: rest, some acc => formatChars args rest (some (c :: acc))

def pyFormat (template : String) (args : List (String × String)) :
    Except PyErr String :=
  match formatChars args template.data none with
  | .ok t => .ok (String.mk t)
  | .error e => .error e

/-- Lines 157 to 173: the instructional template returned by
raphtory_prompt, verbatim. It holds two replacement fields: the literal
resource pattern graphName on the first numbered line and the message
placeholder near the end. -/
def promptTemplate : String :=
  "You are an expert at writing GraphQL queries. You have access to a GraphQL database through the query_db tool.\n    \nBefore writing any queries, you should examine the schema using the schema://main resource to understand the available types, fields and arguments.\n\nWhen a user asks a question, you should:\n1. First check if you need specific graph schema details by using the schema://graph/\x7bgraphName\x7d resource to understand:\n   - Available node types and their properties (including property variants if needed)\n   - Edge types and their properties\n   - Relationships between nodes\n2. Analyze the overall database schema using schema://main to identify other relevant types and fields\n3. Construct an appropriate GraphQL query using proper syntax\n4. Use the query_db tool to execute the query\n5. Format and explain the results in a helpful way\n\nThe user\x27s request is: \x7bmessage\x7d\n\nPlease write a valid GraphQL query to answer their question."

/-- Lines 154 to 173: raphtory_prompt, which formats the template with the
single keyword argument message. -/
def raphtory_prompt (message : String) : Except PyErr String :=
  pyFormat promptTemplate [("message", message)]

/-- One event of the connection-lifecycle trace: handles are identified by
a number standing for the AsyncClient object. -/
inductive LifeEvent where
  | acquire (handle : Nat)
  | dispatch (handle : Nat) (query : String)
  | release (handle : Nat)

def LifeEvent.isAcquire : LifeEvent → Bool
  | .acquire _ => true
  | _ => false

def LifeEvent.isRelease : LifeEvent → Bool
  | .release _ => true
  | _ => false

/-- Lines 9 to 11: the lifespan context owning the one shared client. -/
structure AppContext where
  graphql_client : Nat

/-- Lines 13 to 20: app_lifespan. One client is created, the server body
runs with the context owning it and may finish normally or with an
exception, and the finally clause closes the client on either path. The
returned trace records the acquire, the events of the body, and the
release. -/
def app_lifespan (client : Nat)
    (body : AppContext → Except String Unit × List LifeEvent) :
    Except String Unit × List LifeEvent :=
  let r := body (AppContext.mk client)
  (r.fst, LifeEvent.acquire client :: (r.snd ++ [LifeEvent.release client]))

/-- Line 31: the dispatch event query_db emits, on the client it reads
from the lifespan context it is handed. -/
def query_db_dispatch (ctx : AppContext) (q : String) : LifeEvent :=
  LifeEvent.dispatch ctx.graphql_client q

def Json.isStr : Json → Bool
  | .str _ => true
  | _ => false

/-- A dict lookup as an Option, for stating where aggregated fields land. -/
def Json.atKey (j : Json) (k : String) : Option Json :=
  match j with
  | .obj fs => lookupKey k fs
  | _ => none

/-- The graph object inside a response body. -/
def graphOf (r : Json) : Option Json :=
  match r with
  | .obj fs =>
    match lookupKey "data" fs with
    | some (.obj dfs) => lookupKey "graph" dfs
    | _ => none
  | _ => none

/-- Stated after the words of the spec, section 4.5 step 4a: the value
scalars one edge contributes, namely every value entry of its properties
values sequence. -/
def valOf (v : Json) : Option Json :=
  match v with
  | .obj vfs => lookupKey "value" vfs
  | _ => none

def specEdgeValues (edge : Json) : List Json :=
  match edge with
  | .obj fs =>
    match lookupKey "properties" fs with
    | some (.obj pfs) =>
      match lookupKey "values" pfs with
      | some (.arr vs) => vs.filterMap valOf
      | _ => []
    | _ => []
  | _ => []

/-- Stated after the words of the spec: all value scalars over all edges,
in walk order. -/
def specAllValues (edges : List Json) : List Json :=
  edges.foldr (fun e acc => specEdgeValues e ++ acc) []

/-- The edge shapes the aggregation walk traverses without a dynamic-type
exception: a dict whose properties entry, when present, is a dict whose
values entry, when present, is a list of dicts. -/
def goodEdge : Json → Bool
  | .obj fs =>
    match lookupKey "properties" fs with
    | none => true
    | some (.obj pfs) =>
      match lookupKey "values" pfs with
      | none => true
      | some (.arr vs) => vs.all Json.isObj
      | some _ => false
    | some _ => false
  | _ => false

/-- Two concrete edges whose property values are knows, knows and likes. -/
def sampleEdges : List Json :=
  [Json.obj [("properties", Json.obj
     [("keys", Json.arr []),
      ("values", Json.arr
        [Json.obj [("value", Json.str "knows")],
         Json.obj [("value", Json.str "knows")]])])],
   Json.obj [("properties", Json.obj
     [("values", Json.arr
        [Json.obj [("value", Json.str "likes")]])])]]

def sampleEtFields : List (String × Json) :=
  [("list", Json.arr sampleEdges)]

def sampleGraphFields : List (String × Json) :=
  [("schema", Json.str "s"), ("edgeTypes", Json.obj sampleEtFields)]

def sampleDataFields : List (String × Json) :=
  [("graph", Json.obj sampleGraphFields)]

def sampleRespFields : List (String × Json) :=
  [("data", Json.obj sampleDataFields)]

/-- A concrete schema response holding the two sample edges. -/
def sampleSchemaResponse : Json := Json.obj sampleRespFields

/-- A transport oracle: the combined schema query, recognised by its
schema section, receives sampleSchemaResponse; the probe query receives a
plain data response with no errors key. -/
def sampleTransport : Transport := fun req =>
  match req.body with
  | Json.obj (("query", Json.str q) :: _) =>
    if substrB "schema \x7b" q then .ok sampleSchemaResponse
    else .ok (Json.obj [("data", Json.null)])
  | _ => .ok Json.null

theorem strLeChars_total : ∀ as bs, strLeChars as bs = true ∨ strLeChars bs as = true := by
  intro as
  induction as with
  | nil => intro bs; left; rfl
  | cons a as ih =>
    intro bs
    cases bs with
    | nil => right; rfl
    | cons b bs =>
      simp only [strLeChars]
      rcases Nat.lt_trichotomy a.toNat b.toNat with h | h | h
      · left; simp [h]
      · have h2 : ¬ a.toNat < b.toNat := by omega
        have h3 : ¬ b.toNat < a.toNat := by omega
        rcases ih bs with h4 | h4
        · left; simp [h2, h, h4]
        · right; simp [h3, h.symm, h4]
      · right; simp [h]

theorem strLeChars_trans : ∀ as bs cs, strLeChars as bs = true → strLeChars bs cs = true →
    strLeChars as cs = true := by
  intro as
  induction as with
  | nil => intro bs cs _ _; rfl
  | cons a as ih =>
    intro bs cs h1 h2
    cases bs with
    | nil => simp [strLeChars] at h1
    | cons b bs =>
      cases cs with
      | nil => simp [strLeChars] at h2
      | cons c cs =>
        simp only [strLeChars] at h1 h2 ⊢
        by_cases hab : a.toNat < b.toNat
        · by_cases hbc : b.toNat < c.toNat
          · simp [show a.toNat < c.toNat by omega]
          · simp [hbc] at h2
            by_cases hbc2 : b.toNat = c.toNat
            · simp [show a.toNat < c.toNat by omega]
            · simp [hbc2] at h2
        · simp [hab] at h1
          by_cases hab2 : a.toNat = b.toNat
          · simp [hab2] at h1
            by_cases hbc : b.toNat < c.toNat
            · simp [show a.toNat < c.toNat by omega]
            · simp [hbc] at h2
              by_cases hbc2 : b.toNat = c.toNat
              · simp [hbc2] at h2
                have hac : ¬ a.toNat < c.toNat := by omega
                simp [hac, show a.toNat = c.toNat by omega]
                exact ih bs cs h1 h2
              · simp [hbc2] at h2
          · simp [hab2] at h1

theorem strLe_total (a b : String) : strLe a b = true ∨ strLe b a = true :=
  strLeChars_total a.data b.data

theorem strLe_trans {a b c : String} (h1 : strLe a b = true) (h2 : strLe b c = true) :
    strLe a c = true :=
  strLeChars_trans a.data b.data c.data h1 h2

instance : IsTotal String strLeP := ⟨strLe_total⟩

instance : IsTrans String strLeP := ⟨fun _ _ _ => strLe_trans⟩

theorem sortStrs_perm (l : List String) : List.Perm (sortStrs l) l :=
  List.perm_insertionSort _ l

theorem sortStrs_sorted (l : List String) : List.Sorted strLeP (sortStrs l) :=
  List.sorted_insertionSort _ l

theorem strStarts_self_append : ∀ p r : List Char, strStarts p (p ++ r) = true := by
  intro p r
  induction p with
  | nil => rfl
  | cons c p ih => simp [strStarts, ih]

theorem isStr_exists {j : Json} (h : j.isStr = true) : ∃ s, j = Json.str s := by
  cases j <;> simp [Json.isStr] at h ⊢

theorem beqJson_str_str (a b : String) : beqJson (.str a) (.str b) = (a == b) := rfl

theorem containsJ_iff_mem {l : List Json} (hl : ∀ j ∈ l, j.isStr = true) {v : Json}
    (hv : v.isStr = true) : containsJ l v = true ↔ v ∈ l := by
  induction l with
  | nil => simp [containsJ]
  | cons x xs ih =>
    rcases isStr_exists hv with ⟨s, rfl⟩
    rcases isStr_exists (hl x (by simp)) with ⟨t, rfl⟩
    have := ih (fun j hj => hl j (by simp [hj]))
    simp [containsJ, List.any_cons, beqJson_str_str] at this ⊢
    constructor
    · rintro (h | h)
      · left; exact h.symm
      · right; exact this.mp h
    · rintro (h | h)
      · left; exact h.symm
      · right; exact this.mpr h

theorem mem_setAdd {s : List Json} (hs : ∀ j ∈ s, j.isStr = true) {v : Json}
    (hv : v.isStr = true) (x : Json) : x ∈ setAdd s v ↔ x ∈ s ∨ x = v := by
  unfold setAdd
  by_cases hc : containsJ s v = true
  · have hvm : v ∈ s := (containsJ_iff_mem hs hv).mp hc
    simp [hc]
    intro hx
    rw [hx]; exact hvm
  · simp [hc, List.mem_append]

theorem setAdd_strs {s : List Json} (hs : ∀ j ∈ s, j.isStr = true) {v : Json}
    (hv : v.isStr = true) : ∀ j ∈ setAdd s v, j.isStr = true := by
  unfold setAdd
  by_cases hc : containsJ s v = true
  · simp [hc]; exact hs
  · simp [hc]
    intro j hj
    rcases hj with hj | hj
    · exact hs j hj
    · rw [hj]; exact hv

theorem setAdd_nodup {s : List Json} (hs : ∀ j ∈ s, j.isStr = true) {v : Json}
    (hv : v.isStr = true) (hnd : s.Nodup) : (setAdd s v).Nodup := by
  unfold setAdd
  by_cases hc : containsJ s v = true
  · simpa [hc]
  · have hvm : v ∉ s := by
      intro hm
      exact hc ((containsJ_iff_mem hs hv).mpr hm)
    simp [hc, List.nodup_append, hnd, hvm]

theorem foldl_setAdd_strs {l : List Json} (hl : ∀ j ∈ l, j.isStr = true) :
    ∀ {s : List Json}, (∀ j ∈ s, j.isStr = true) →
      ∀ j ∈ l.foldl setAdd s, j.isStr = true := by
  induction l with
  | nil => intro s hs; simpa using hs
  | cons v vs ih =>
    intro s hs
    have hv : v.isStr = true := hl v (by simp)
    simp only [List.foldl_cons]
    exact ih (fun j hj => hl j (by simp [hj])) (setAdd_strs hs hv)

theorem mem_foldl_setAdd {l : List Json} (hl : ∀ j ∈ l, j.isStr = true) :
    ∀ {s : List Json}, (∀ j ∈ s, j.isStr = true) →
      ∀ x, x ∈ l.foldl setAdd s ↔ x ∈ s ∨ x ∈ l := by
  induction l with
  | nil => intro s _ x; simp
  | cons v vs ih =>
    intro s hs x
    have hv : v.isStr = true := hl v (by simp)
    simp only [List.foldl_cons]
    rw [ih (fun j hj => hl j (by simp [hj])) (setAdd_strs hs hv) x,
        mem_setAdd hs hv x]
    simp [List.mem_cons]
    tauto

theorem foldl_setAdd_nodup {l : List Json} (hl : ∀ j ∈ l, j.isStr = true) :
    ∀ {s : List Json}, (∀ j ∈ s, j.isStr = true) → s.Nodup →
      (l.foldl setAdd s).Nodup := by
  induction l with
  | nil => intro s _ h; simpa using h
  | cons v vs ih =>
    intro s hs hnd
    have hv : v.isStr = true := hl v (by simp)
    simp only [List.foldl_cons]
    exact ih (fun j hj => hl j (by simp [hj])) (setAdd_strs hs hv) (setAdd_nodup hs hv hnd)

theorem processValue_obj (vfs : List (String × Json)) (a : List Json) :
    processValue a (.obj vfs) = .ok (match lookupKey "value" vfs with
      | some x => setAdd a x
      | none => a) := by
  unfold processValue
  cases h : lookupKey "value" vfs <;>
    simp [pyInStr, pyIndex, h, Bind.bind, Except.bind, pure, Except.pure]

theorem foldlM_processValue {vs : List Json} (h : ∀ v ∈ vs, v.isObj = true)
    (a : List Json) :
    vs.foldlM processValue a = .ok ((vs.filterMap valOf).foldl setAdd a) := by
  induction vs generalizing a with
  | nil => simp [pure, Except.pure]
  | cons v vs ih =>
    have hv : v.isObj = true := h v (by simp)
    have hrest : ∀ x ∈ vs, x.isObj = true := fun x hx => h x (by simp [hx])
    cases v with
    | obj vfs =>
      rw [List.foldlM_cons, processValue_obj]
      cases hval : lookupKey "value" vfs <;>
        simp [valOf, hval, Bind.bind, Except.bind, ih hrest, List.filterMap_cons]
    | null => simp [Json.isObj] at hv
    | bool b => simp [Json.isObj] at hv
    | num n => simp [Json.isObj] at hv
    | str s => simp [Json.isObj] at hv
    | arr xs => simp [Json.isObj] at hv

theorem processEdge_good {e : Json} (he : goodEdge e = true) (a : List Json) :
    processEdge a e = .ok ((specEdgeValues e).foldl setAdd a) := by
  cases e with
  | obj fs =>
    cases hp : lookupKey "properties" fs with
    | none =>
      simp [processEdge, specEdgeValues, pyInStr, hp, Bind.bind, Except.bind,
        pure, Except.pure]
    | some props =>
      cases props with
      | obj pfs =>
        cases hv : lookupKey "values" pfs with
        | none =>
          simp [processEdge, specEdgeValues, pyInStr, pyIndex, hp, hv,
            Bind.bind, Except.bind, pure, Except.pure]
        | some vals =>
          have hgood := he
          simp only [goodEdge, hp, hv] at hgood
          cases vals with
          | arr vs =>
            have hall : ∀ v ∈ vs, v.isObj = true :=
              fun v hm => List.all_eq_true.mp hgood v hm
            simp [processEdge, specEdgeValues, pyInStr, pyIndex, pyIter, hp, hv,
              Bind.bind, Except.bind, foldlM_processValue hall a]
          | null => simp at hgood
          | bool b => simp at hgood
          | num n => simp at hgood
          | str s => simp at hgood
          | obj ofs => simp at hgood
      | null => simp [goodEdge, hp] at he
      | bool b => simp [goodEdge, hp] at he
      | num n => simp [goodEdge, hp] at he
      | str s => simp [goodEdge, hp] at he
      | arr xs => simp [goodEdge, hp] at he
  | null => simp [goodEdge] at he
  | bool b => simp [goodEdge] at he
  | num n => simp [goodEdge] at he
  | str s => simp [goodEdge] at he
  | arr xs => simp [goodEdge] at he

theorem specAllValues_cons (e : Json) (edges : List Json) :
    specAllValues (e :: edges) = specEdgeValues e ++ specAllValues edges := rfl

theorem foldlM_processEdge {edges : List Json} (h : ∀ e ∈ edges, goodEdge e = true)
    (a : List Json) :
    edges.foldlM processEdge a = .ok ((specAllValues edges).foldl setAdd a) := by
  induction edges generalizing a with
  | nil => simp [specAllValues, pure, Except.pure]
  | cons e edges ih =>
    rw [List.foldlM_cons, processEdge_good (h e (by simp)) a]
    simp only [Bind.bind, Except.bind]
    rw [ih (fun x hx => h x (by simp [hx])), specAllValues_cons, List.foldl_append]

theorem asStrList_strs {l : List Json} (h : ∀ j ∈ l, j.isStr = true) :
    ∃ ss : List String, asStrList l = some ss ∧ l = ss.map Json.str := by
  induction l with
  | nil => exact ⟨[], rfl, rfl⟩
  | cons v vs ih =>
    rcases isStr_exists (h v (by simp)) with ⟨s, rfl⟩
    rcases ih (fun j hj => h j (by simp [hj])) with ⟨ss, h1, h2⟩
    refine ⟨s :: ss, ?_, by simp [h2]⟩
    simp [asStrList, Json.asStr, h1]

theorem pySorted_strs {l : List Json} {ss : List String}
    (h1 : asStrList l = some ss) :
    pySorted l = .ok ((sortStrs ss).map Json.str) := by
  unfold pySorted
  rw [h1]

theorem lookupKey_objSetFields_self (k : String) (v : Json) :
    ∀ fs, lookupKey k (objSetFields k v fs) = some v := by
  intro fs
  induction fs with
  | nil => simp [objSetFields, lookupKey]
  | cons p rest ih =>
    rcases p with ⟨k2, v2⟩
    by_cases h : k2 = k
    · simp [objSetFields, lookupKey, h]
    · simp [objSetFields, lookupKey, h, ih]

theorem lookupKey_objSetFields_ne {k k2 : String} (h : k ≠ k2) (v : Json) :
    ∀ fs, lookupKey k (objSetFields k2 v fs) = lookupKey k fs := by
  intro fs
  induction fs with
  | nil => simp [objSetFields, lookupKey, Ne.symm h]
  | cons p rest ih =>
    rcases p with ⟨k3, v3⟩
    by_cases h3 : k3 = k2
    · subst h3
      simp [objSetFields, lookupKey, Ne.symm h]
    · simp [objSetFields, lookupKey, h3, ih]

theorem lookupKey_objDelFields_ne {k k2 : String} (h : k ≠ k2) :
    ∀ fs, lookupKey k (objDelFields k2 fs) = lookupKey k fs := by
  intro fs
  induction fs with
  | nil => simp [objDelFields]
  | cons p rest ih =>
    rcases p with ⟨k3, v3⟩
    by_cases h3 : k3 = k2
    · subst h3
      simp [objDelFields, lookupKey, Ne.symm h]
    · simp [objDelFields, lookupKey, h3, ih]

theorem lookupKey_none_of_not_mem {k : String} :
    ∀ {fs : List (String × Json)}, k ∉ fs.map Prod.fst → lookupKey k fs = none := by
  intro fs
  induction fs with
  | nil => intro _; rfl
  | cons p rest ih =>
    rcases p with ⟨k2, v2⟩
    intro h
    simp only [List.map_cons, List.mem_cons] at h
    push_neg at h
    simp [lookupKey, Ne.symm h.1, ih h.2]

theorem mem_keys_objSetFields {x k : String} (v : Json) :
    ∀ fs, x ∈ (objSetFields k v fs).map Prod.fst ↔ x ∈ fs.map Prod.fst ∨ x = k := by
  intro fs
  induction fs with
  | nil => simp [objSetFields]
  | cons p rest ih =>
    rcases p with ⟨k2, v2⟩
    by_cases h : k2 = k
    · subst h
      simp [objSetFields]
      tauto
    · simp [objSetFields, h, ih]
      tauto

theorem keys_objSetFields_nodup {k : String} (v : Json) :
    ∀ {fs : List (String × Json)}, (fs.map Prod.fst).Nodup →
      ((objSetFields k v fs).map Prod.fst).Nodup := by
  intro fs
  induction fs with
  | nil => intro _; simp [objSetFields]
  | cons p rest ih =>
    rcases p with ⟨k2, v2⟩
    intro h
    simp only [List.map_cons, List.nodup_cons] at h
    by_cases hk : k2 = k
    · subst hk
      have he : objSetFields k2 v ((k2, v2) :: rest) = (k2, v) :: rest := by
        simp [objSetFields]
      rw [he]
      simp [List.nodup_cons, h.1, h.2]
    · have he : objSetFields k v ((k2, v2) :: rest) = (k2, v2) :: objSetFields k v rest := by
        simp [objSetFields, hk]
      rw [he]
      simp only [List.map_cons, List.nodup_cons]
      constructor
      · rw [mem_keys_objSetFields]
        rintro (hm | hm)
        · exact h.1 hm
        · exact hk hm
      · exact ih h.2

theorem lookupKey_objDelFields_self {k : String} :
    ∀ {fs : List (String × Json)}, (fs.map Prod.fst).Nodup →
      lookupKey k (objDelFields k fs) = none := by
  intro fs
  induction fs with
  | nil => intro _; rfl
  | cons p rest ih =>
    rcases p with ⟨k2, v2⟩
    intro h
    simp only [List.map_cons, List.nodup_cons] at h
    by_cases hk : k2 = k
    · subst hk
      have he : objDelFields k2 ((k2, v2) :: rest) = rest := by
        simp [objDelFields]
      rw [he]
      exact lookupKey_none_of_not_mem h.1
    · have he : objDelFields k ((k2, v2) :: rest) = (k2, v2) :: objDelFields k rest := by
        simp [objDelFields, hk]
      rw [he]
      simp [lookupKey, hk, ih h.2]

/-- C6: for every exception raised during the transport round-trip or the
decoding of the response body, query_db returns the string Error: followed
by the message of the exception, and never propagates the exception: the
returned value literally begins with the Error: marker. -/
theorem query_db_catches_transport_errors (transport : Transport)
    (q e : String) (v : Json) (msg : String)
    (h : transport (buildRequest q e v) = .error msg) :
    query_db transport q e v = Json.str ("Error: " ++ msg) ∧
    strStarts ("Error: ").data (("Error: " ++ msg) : String).data = true := by
  constructor
  · unfold query_db
    rw [h]
  · rw [String.data_append]
    exact strStarts_self_append _ _

theorem query_db_catches_transport_errors_witness :
    ((fun _ => Except.error "boom" : Transport) (buildRequest "query" defaultEndpoint Json.null)
      = Except.error "boom") ∧
    query_db (fun _ => Except.error "boom") "query" defaultEndpoint Json.null =
      Json.str "Error: boom" :=
  ⟨rfl, by exact (query_db_catches_transport_errors _ "query" defaultEndpoint
    Json.null "boom" rfl).1⟩

/-- C8: a query dispatched with the variables argument absent (the None
default) or empty submits a POST request whose JSON body carries the query
and an empty variables mapping, with a JSON content-type header, to the
endpoint argument whose default is the fixed local endpoint. -/
theorem query_db_builds_default_request (q : String) (v : Json)
    (h : v = defaultVariables ∨ v = Json.obj []) :
    buildRequest q defaultEndpoint v =
      { method := "POST"
        endpoint := "http://localhost:1736/"
        headers := [("Content-Type", "application/json")]
        body := Json.obj [("query", Json.str q), ("variables", Json.obj [])] } ∧
    defaultVariables = Json.null ∧ defaultEndpoint = "http://localhost:1736/" := by
  rcases h with rfl | rfl <;> exact ⟨rfl, rfl, rfl⟩

theorem query_db_builds_default_request_witness :
    ((defaultVariables : Json) = defaultVariables ∨ (defaultVariables : Json) = Json.obj []) ∧
    (buildRequest "query GetGraphs" defaultEndpoint defaultVariables =
      { method := "POST"
        endpoint := "http://localhost:1736/"
        headers := [("Content-Type", "application/json")]
        body := Json.obj [("query", Json.str "query GetGraphs"), ("variables", Json.obj [])] } ∧
     defaultVariables = Json.null ∧ defaultEndpoint = "http://localhost:1736/") :=
  ⟨Or.inl rfl, query_db_builds_default_request "query GetGraphs" defaultVariables (Or.inl rfl)⟩

/-- C10: when the transport raises, query_db hands check_graph_exists the
string Error: followed by the message, and the membership test errors in
result becomes a substring search on that string: the probe reports the
graph as existing exactly when the message does not contain the run
errors. -/
theorem check_graph_exists_on_error_string (g msg : String) :
    check_graph_exists (fun _ => .error msg) g =
      .ok (!substrB "errors" ("Error: " ++ msg)) := rfl

/-- C5: for every graph name on which the existence probe reports False,
get_graph_schema returns the local error object carrying the message Graph
name does not exist, and the only query it dispatched is the probe query:
the schema query is never issued. -/
theorem get_graph_schema_short_circuits (transport : Transport) (g : String)
    (iv : Json) (h : check_graph_exists transport g = .ok false) :
    get_graph_schema transport g iv = (.ok (graphMissingError g), [verifyQuery g]) := by
  unfold get_graph_schema
  rw [h]
  rfl

theorem get_graph_schema_short_circuits_witness :
    check_graph_exists (fun _ => Except.ok (Json.obj [("errors", Json.arr [])])) "g" =
      .ok false ∧
    get_graph_schema (fun _ => Except.ok (Json.obj [("errors", Json.arr [])])) "g"
      (Json.bool false) = (.ok (graphMissingError "g"), [verifyQuery "g"]) :=
  ⟨rfl, get_graph_schema_short_circuits _ "g" (Json.bool false) rfl⟩

/-- C3: for every graph name whose probe query comes back as a structured
response, check_graph_exists returns False exactly when the response owns
an errors key, whatever its data entry holds, and True otherwise. -/
theorem check_graph_exists_errors_key (transport : Transport) (g : String)
    (resp : Json)
    (h1 : transport (buildRequest (verifyQuery g) defaultEndpoint defaultVariables) = .ok resp)
    (h2 : resp.isObj = true) :
    check_graph_exists transport g = .ok (!resp.hasKey "errors") := by
  cases resp with
  | obj fs =>
    unfold check_graph_exists query_db
    rw [h1]
    rfl
  | null => simp [Json.isObj] at h2
  | bool b => simp [Json.isObj] at h2
  | num n => simp [Json.isObj] at h2
  | str s => simp [Json.isObj] at h2
  | arr xs => simp [Json.isObj] at h2

theorem check_graph_exists_errors_key_witness :
    ((fun _ => Except.ok (Json.obj [("errors", Json.arr []), ("data", Json.null)]) : Transport)
        (buildRequest (verifyQuery "g") defaultEndpoint defaultVariables) =
      Except.ok (Json.obj [("errors", Json.arr []), ("data", Json.null)])) ∧
    (Json.obj [("errors", Json.arr []), ("data", Json.null)]).isObj = true ∧
    check_graph_exists
      (fun _ => Except.ok (Json.obj [("errors", Json.arr []), ("data", Json.null)])) "g" =
      .ok false :=
  ⟨rfl, rfl,
   (by exact check_graph_exists_errors_key _ "g"
        (Json.obj [("errors", Json.arr []), ("data", Json.null)]) rfl rfl)⟩

/-- C2: the claim fails on the code. raphtory_prompt formats the template
with the single keyword argument message, but the template also holds the
literal replacement field graphName inside the resource pattern on its
first numbered line, so str.format raises KeyError for graphName on every
input before the message field is ever reached: the operation never
returns and the promise that no exposed operation raises across the tool
boundary is broken. -/
theorem raphtory_prompt_raises_keyerror (message : String) :
    raphtory_prompt message = .error (.keyError "graphName") := rfl

/-- C1: the claim fails on the code. The parameter include_variants is
declared bool with default False, yet the query builder tests
include_variants == "true", and under Python equality a bool never equals
a str: with the boolean True the built query omits the variants field the
claim requires, and the field appears only when the argument is the very
string true. -/
theorem schemaQuery_variants_comparison :
    substrB "variants" (schemaQuery "g" (Json.bool true)) = false ∧
    substrB "variants" (schemaQuery "g" (Json.bool false)) = false ∧
    substrB "variants" (schemaQuery "g" (Json.str "true")) = true :=
  ⟨rfl, rfl, rfl⟩

/-- C9: one connection handle is created at process start and the trace of
a whole lifespan holds exactly one acquire, at its head, and exactly one
release, at its end, on every shutdown path, normal or error; and every
dispatch a body performs through query_db uses the very handle of the
lifespan context, so the handle is never recreated per request. -/
theorem app_lifespan_single_acquire_release (client : Nat)
    (body : AppContext → Except String Unit × List LifeEvent)
    (hbody : ∀ e ∈ (body (AppContext.mk client)).snd, ∃ q,
      e = query_db_dispatch (AppContext.mk client) q) :
    (app_lifespan client body).snd.countP LifeEvent.isAcquire = 1 ∧
    (app_lifespan client body).snd.countP LifeEvent.isRelease = 1 ∧
    (app_lifespan client body).snd.head? = some (LifeEvent.acquire client) ∧
    (app_lifespan client body).snd.getLast? = some (LifeEvent.release client) ∧
    (∀ h q, LifeEvent.dispatch h q ∈ (app_lifespan client body).snd → h = client) := by
  have hdisp : ∀ e ∈ (body (AppContext.mk client)).snd,
      LifeEvent.isAcquire e = false ∧ LifeEvent.isRelease e = false := by
    intro e he
    rcases hbody e he with ⟨q, rfl⟩
    exact ⟨rfl, rfl⟩
  unfold app_lifespan
  refine ⟨?_, ?_, rfl, ?_, ?_⟩
  · rw [List.countP_cons, List.countP_append]
    have h0 : (body (AppContext.mk client)).snd.countP LifeEvent.isAcquire = 0 :=
      List.countP_eq_zero.mpr (fun e he => by simp [(hdisp e he).1])
    simp [h0, LifeEvent.isAcquire]
  · rw [List.countP_cons, List.countP_append]
    have h0 : (body (AppContext.mk client)).snd.countP LifeEvent.isRelease = 0 :=
      List.countP_eq_zero.mpr (fun e he => by simp [(hdisp e he).2])
    simp [h0, LifeEvent.isRelease]
  · show (LifeEvent.acquire client ::
        ((body (AppContext.mk client)).snd ++ [LifeEvent.release client])).getLast? =
        some (LifeEvent.release client)
    rw [show LifeEvent.acquire client ::
        ((body (AppContext.mk client)).snd ++ [LifeEvent.release client]) =
        (LifeEvent.acquire client :: (body (AppContext.mk client)).snd) ++
          [LifeEvent.release client] by simp,
      List.getLast?_concat]
  · intro h q hm
    simp only [List.mem_cons, List.mem_append, List.mem_singleton] at hm
    rcases hm with hm | hm | hm | hm
    · cases hm
    · rcases hbody _ hm with ⟨q2, heq⟩
      unfold query_db_dispatch at heq
      cases heq
      rfl
    · cases hm
    · cases hm

theorem app_lifespan_single_acquire_release_witness :
    (∀ e ∈ ((fun ctx => ((Except.error "boom" : Except String Unit),
        [query_db_dispatch ctx "q1", query_db_dispatch ctx "q2"]))
          (AppContext.mk 7)).snd, ∃ q,
      e = query_db_dispatch (AppContext.mk 7) q) ∧
    ((app_lifespan 7 (fun ctx => ((Except.error "boom" : Except String Unit),
        [query_db_dispatch ctx "q1", query_db_dispatch ctx "q2"]))).snd.countP
          LifeEvent.isAcquire = 1 ∧
     (app_lifespan 7 (fun ctx => ((Except.error "boom" : Except String Unit),
        [query_db_dispatch ctx "q1", query_db_dispatch ctx "q2"]))).snd.countP
          LifeEvent.isRelease = 1 ∧
     (app_lifespan 7 (fun ctx => ((Except.error "boom" : Except String Unit),
        [query_db_dispatch ctx "q1", query_db_dispatch ctx "q2"]))).snd.head? =
          some (LifeEvent.acquire 7) ∧
     (app_lifespan 7 (fun ctx => ((Except.error "boom" : Except String Unit),
        [query_db_dispatch ctx "q1", query_db_dispatch ctx "q2"]))).snd.getLast? =
          some (LifeEvent.release 7) ∧
     (∀ h q, LifeEvent.dispatch h q ∈
        (app_lifespan 7 (fun ctx => ((Except.error "boom" : Except String Unit),
          [query_db_dispatch ctx "q1", query_db_dispatch ctx "q2"]))).snd → h = 7)) := by
  constructor
  · intro e he
    simp only [List.mem_cons, List.not_mem_nil, or_false] at he
    rcases he with he | he
    · exact ⟨"q1", he⟩
    · exact ⟨"q2", he⟩
  · exact app_lifespan_single_acquire_release 7 _ (by
      intro e he
      simp only [List.mem_cons, List.not_mem_nil, or_false] at he
      rcases he with he | he
      · exact ⟨"q1", he⟩
      · exact ⟨"q2", he⟩)

theorem processSchemaResult_unchanged (resp : Json)
    (h :
      resp.isObj = false ∨
      (∃ fields, resp = Json.obj fields ∧
        (lookupKey "data" fields = none ∨
         ∃ d, lookupKey "data" fields = some d ∧ d.truthy = false)) ∨
      (∃ fields dfs, resp = Json.obj fields ∧
        lookupKey "data" fields = some (Json.obj dfs) ∧
        (lookupKey "graph" dfs = none ∨
         ∃ gv, lookupKey "graph" dfs = some gv ∧ gv.truthy = false)) ∨
      (∃ fields dfs gfs, resp = Json.obj fields ∧
        lookupKey "data" fields = some (Json.obj dfs) ∧
        lookupKey "graph" dfs = some (Json.obj gfs) ∧
        lookupKey "edgeTypes" gfs = none)) :
    processSchemaResult resp = .ok resp := by
  rcases h with h | ⟨fields, rfl, h⟩ | ⟨fields, dfs, rfl, hd, hg⟩ |
    ⟨fields, dfs, gfs, rfl, hd, hg, he⟩
  · cases resp with
    | obj fs => simp [Json.isObj] at h
    | null => rfl
    | bool b => rfl
    | num n => rfl
    | str s => rfl
    | arr xs => rfl
  · rcases h with h | ⟨d, hd, hfalse⟩
    · simp [processSchemaResult, h, pure, Except.pure]
    · simp [processSchemaResult, hd, hfalse, pure, Except.pure]
  · by_cases hdfs : dfs.isEmpty
    · have htr : (Json.obj dfs).truthy = false := by simp [Json.truthy, hdfs]
      simp [processSchemaResult, hd, htr, pure, Except.pure]
    · have htr : (Json.obj dfs).truthy = true := by simp [Json.truthy, hdfs]
      rcases hg with hg | ⟨gv, hgv, hfalse⟩
      · have hget : pyGetD (Json.obj dfs) "graph" (Json.obj []) = .ok (Json.obj []) := by
          simp [pyGetD, hg]
        have hf : (Json.obj ([] : List (String × Json))).truthy = false := rfl
        simp [processSchemaResult, hd, htr, hget, hf,
          Bind.bind, Except.bind, pure, Except.pure]
      · have hget : pyGetD (Json.obj dfs) "graph" (Json.obj []) = .ok gv := by
          simp [pyGetD, hgv]
        simp [processSchemaResult, hd, htr, hget, hfalse,
          Bind.bind, Except.bind, pure, Except.pure]
  · by_cases hdfs : dfs.isEmpty
    · have htr : (Json.obj dfs).truthy = false := by simp [Json.truthy, hdfs]
      simp [processSchemaResult, hd, htr, pure, Except.pure]
    · have htr : (Json.obj dfs).truthy = true := by simp [Json.truthy, hdfs]
      have hget : pyGetD (Json.obj dfs) "graph" (Json.obj []) = .ok (Json.obj gfs) := by
        simp [pyGetD, hg]
      by_cases hgfs : gfs.isEmpty
      · have hgf : (Json.obj gfs).truthy = false := by simp [Json.truthy, hgfs]
        simp [processSchemaResult, hd, htr, hget, hgf,
          Bind.bind, Except.bind, pure, Except.pure]
      · have hgf : (Json.obj gfs).truthy = true := by simp [Json.truthy, hgfs]
        have hin : pyInStr "edgeTypes" (Json.obj gfs) = .ok false := by
          simp [pyInStr, he]
        simp [processSchemaResult, hd, htr, hget, hgf, hin,
          Bind.bind, Except.bind, pure, Except.pure]

theorem get_graph_schema_dispatches (transport : Transport) (g : String)
    (iv vresp : Json)
    (h1 : transport (buildRequest (verifyQuery g) defaultEndpoint defaultVariables) = .ok vresp)
    (h2 : pyInStr "errors" vresp = .ok false) :
    get_graph_schema transport g iv =
      (processSchemaResult
        (query_db transport (schemaQuery g iv) defaultEndpoint defaultVariables),
       [verifyQuery g, schemaQuery g iv]) := by
  unfold get_graph_schema check_graph_exists
  unfold query_db
  rw [h1]
  rw [h2]
  rfl

/-- C7: when the schema response lacks a data entry, or its data entry is
falsy, or the graph entry under data is absent or falsy, or the graph
object owns no edgeTypes key, get_graph_schema returns the dispatched
response exactly as received: no relationships entry is injected and no
entry is removed. -/
theorem get_graph_schema_frame (transport : Transport) (g : String)
    (iv vresp resp : Json)
    (h1 : transport (buildRequest (verifyQuery g) defaultEndpoint defaultVariables) = .ok vresp)
    (h2 : pyInStr "errors" vresp = .ok false)
    (h3 : transport (buildRequest (schemaQuery g iv) defaultEndpoint defaultVariables) = .ok resp)
    (h4 :
      resp.isObj = false ∨
      (∃ fields, resp = Json.obj fields ∧
        (lookupKey "data" fields = none ∨
         ∃ d, lookupKey "data" fields = some d ∧ d.truthy = false)) ∨
      (∃ fields dfs, resp = Json.obj fields ∧
        lookupKey "data" fields = some (Json.obj dfs) ∧
        (lookupKey "graph" dfs = none ∨
         ∃ gv, lookupKey "graph" dfs = some gv ∧ gv.truthy = false)) ∨
      (∃ fields dfs gfs, resp = Json.obj fields ∧
        lookupKey "data" fields = some (Json.obj dfs) ∧
        lookupKey "graph" dfs = some (Json.obj gfs) ∧
        lookupKey "edgeTypes" gfs = none)) :
    get_graph_schema transport g iv = (.ok resp, [verifyQuery g, schemaQuery g iv]) := by
  rw [get_graph_schema_dispatches transport g iv vresp h1 h2]
  unfold query_db
  rw [h3]
  rw [processSchemaResult_unchanged resp h4]

theorem get_graph_schema_frame_witness :
    ((fun _ => Except.ok (Json.obj [("data", Json.null)]) : Transport)
        (buildRequest (verifyQuery "g") defaultEndpoint defaultVariables) =
      Except.ok (Json.obj [("data", Json.null)])) ∧
    pyInStr "errors" (Json.obj [("data", Json.null)]) = .ok false ∧
    get_graph_schema (fun _ => Except.ok (Json.obj [("data", Json.null)])) "g"
      (Json.bool false) =
      (.ok (Json.obj [("data", Json.null)]),
       [verifyQuery "g", schemaQuery "g" (Json.bool false)]) :=
  ⟨rfl, rfl,
   get_graph_schema_frame _ "g" (Json.bool false) (Json.obj [("data", Json.null)])
     (Json.obj [("data", Json.null)]) rfl rfl rfl
     (Or.inr (Or.inl ⟨[("data", Json.null)], rfl,
       Or.inr ⟨Json.null, rfl, rfl⟩⟩))⟩

/-- C4: when the schema response is a dict whose truthy data entry holds a
truthy graph dict owning an edgeTypes entry with a list of well-shaped
edges whose value scalars are strings, get_graph_schema rewrites the graph
object: its relationships entry becomes the deduplicated, code-point
sorted list of every value scalar collected over all edges, and its
edgeTypes entry is removed. The witness instantiates the response with two
edges carrying values knows, knows and likes, whose aggregated
relationships entry is the sorted pair knows, likes. -/
theorem get_graph_schema_aggregates (transport : Transport) (g : String)
    (iv vresp : Json) (fields dfs gfs etfs : List (String × Json))
    (edges : List Json)
    (h1 : transport (buildRequest (verifyQuery g) defaultEndpoint defaultVariables) = .ok vresp)
    (h2 : pyInStr "errors" vresp = .ok false)
    (h3 : transport (buildRequest (schemaQuery g iv) defaultEndpoint defaultVariables) =
      .ok (Json.obj fields))
    (h4 : lookupKey "data" fields = some (Json.obj dfs))
    (h5 : dfs.isEmpty = false)
    (h6 : lookupKey "graph" dfs = some (Json.obj gfs))
    (h7 : gfs.isEmpty = false)
    (h8 : lookupKey "edgeTypes" gfs = some (Json.obj etfs))
    (h9 : lookupKey "list" etfs = some (Json.arr edges))
    (h10 : edges.all goodEdge = true)
    (h11 : (specAllValues edges).all Json.isStr = true)
    (h12 : (gfs.map Prod.fst).Nodup) :
    ∃ (res gobj : Json) (out : List String),
      (get_graph_schema transport g iv).fst = .ok res ∧
      graphOf res = some gobj ∧
      gobj.atKey "relationships" = some (Json.arr (out.map Json.str)) ∧
      gobj.atKey "edgeTypes" = none ∧
      List.Sorted strLeP out ∧
      out.Nodup ∧
      (∀ s, s ∈ out ↔ Json.str s ∈ specAllValues edges) := by
  have hvals : ∀ j ∈ specAllValues edges, j.isStr = true := List.all_eq_true.mp h11
  have hgood : ∀ e ∈ edges, goodEdge e = true := List.all_eq_true.mp h10
  have hnilstr : ∀ j ∈ ([] : List Json), j.isStr = true :=
    fun j hj => absurd hj (List.not_mem_nil j)
  have hAstrs : ∀ j ∈ (specAllValues edges).foldl setAdd [], j.isStr = true :=
    foldl_setAdd_strs hvals hnilstr
  obtain ⟨ss, hss1, hss2⟩ := asStrList_strs hAstrs
  have hsorted := pySorted_strs hss1
  have htr : (Json.obj dfs).truthy = true := by simp [Json.truthy, h5]
  have hget : pyGetD (Json.obj dfs) "graph" (Json.obj []) = .ok (Json.obj gfs) := by
    simp [pyGetD, h6]
  have hgf : (Json.obj gfs).truthy = true := by simp [Json.truthy, h7]
  have hin : pyInStr "edgeTypes" (Json.obj gfs) = .ok true := by
    simp [pyInStr, h8]
  have hidx : pyIndex (Json.obj gfs) "edgeTypes" = .ok (Json.obj etfs) := by
    simp [pyIndex, h8]
  have hlist : pyGetD (Json.obj etfs) "list" (Json.arr []) = .ok (Json.arr edges) := by
    simp [pyGetD, h9]
  have hiter : pyIter (Json.arr edges) = .ok edges := rfl
  have hfold := foldlM_processEdge hgood ([] : List Json)
  have hpipe : (get_graph_schema transport g iv).fst = processSchemaResult (Json.obj fields) := by
    rw [get_graph_schema_dispatches transport g iv vresp h1 h2]
    unfold query_db
    rw [h3]
  have hps : processSchemaResult (Json.obj fields) =
      .ok (Json.obj (objSetFields "data"
        (Json.obj (objSetFields "graph"
          (Json.obj (objDelFields "edgeTypes"
            (objSetFields "relationships" (Json.arr ((sortStrs ss).map Json.str)) gfs)))
          dfs))
        fields)) := by
    simp [processSchemaResult, h4, htr, hget, hgf, hin, hidx, hlist, hiter, hfold,
      hsorted, objSet, objDel, Bind.bind, Except.bind, pure, Except.pure]
  have hne : ("relationships" : String) ≠ "edgeTypes" := by decide
  refine ⟨Json.obj (objSetFields "data"
      (Json.obj (objSetFields "graph"
        (Json.obj (objDelFields "edgeTypes"
          (objSetFields "relationships" (Json.arr ((sortStrs ss).map Json.str)) gfs)))
        dfs))
      fields),
    Json.obj (objDelFields "edgeTypes"
      (objSetFields "relationships" (Json.arr ((sortStrs ss).map Json.str)) gfs)),
    sortStrs ss, ?_, ?_, ?_, ?_, ?_, ?_, ?_⟩
  · rw [hpipe, hps]
  · simp [graphOf, lookupKey_objSetFields_self]
  · show lookupKey "relationships" (objDelFields "edgeTypes"
      (objSetFields "relationships" (Json.arr ((sortStrs ss).map Json.str)) gfs)) =
      some (Json.arr ((sortStrs ss).map Json.str))
    rw [lookupKey_objDelFields_ne hne, lookupKey_objSetFields_self]
  · show lookupKey "edgeTypes" (objDelFields "edgeTypes"
      (objSetFields "relationships" (Json.arr ((sortStrs ss).map Json.str)) gfs)) = none
    exact lookupKey_objDelFields_self (keys_objSetFields_nodup _ h12)
  · exact sortStrs_sorted ss
  · have hAnodup : ((specAllValues edges).foldl setAdd []).Nodup :=
      foldl_setAdd_nodup hvals hnilstr List.nodup_nil
    rw [hss2] at hAnodup
    exact ((sortStrs_perm ss).symm).nodup (hAnodup.of_map Json.str)
  · intro s
    rw [(sortStrs_perm ss).mem_iff]
    have hmap : s ∈ ss ↔ Json.str s ∈ ss.map Json.str := by
      simp [List.mem_map]
    rw [hmap, ← hss2,
      mem_foldl_setAdd hvals hnilstr (Json.str s)]
    simp

theorem get_graph_schema_aggregates_witness :
    (sampleTransport (buildRequest (verifyQuery "g") defaultEndpoint defaultVariables) =
      .ok (Json.obj [("data", Json.null)])) ∧
    pyInStr "errors" (Json.obj [("data", Json.null)]) = .ok false ∧
    (sampleTransport (buildRequest (schemaQuery "g" (Json.bool false))
        defaultEndpoint defaultVariables) = .ok (Json.obj sampleRespFields)) ∧
    lookupKey "data" sampleRespFields = some (Json.obj sampleDataFields) ∧
    lookupKey "graph" sampleDataFields = some (Json.obj sampleGraphFields) ∧
    lookupKey "edgeTypes" sampleGraphFields = some (Json.obj sampleEtFields) ∧
    lookupKey "list" sampleEtFields = some (Json.arr sampleEdges) ∧
    sampleEdges.all goodEdge = true ∧
    (specAllValues sampleEdges).all Json.isStr = true ∧
    (sampleGraphFields.map Prod.fst).Nodup ∧
    (∃ (res gobj : Json) (out : List String),
      (get_graph_schema sampleTransport "g" (Json.bool false)).fst = .ok res ∧
      graphOf res = some gobj ∧
      gobj.atKey "relationships" = some (Json.arr (out.map Json.str)) ∧
      gobj.atKey "edgeTypes" = none ∧
      List.Sorted strLeP out ∧
      out.Nodup ∧
      (∀ s, s ∈ out ↔ Json.str s ∈ specAllValues sampleEdges)) ∧
    (get_graph_schema sampleTransport "g" (Json.bool false)).fst =
      .ok (Json.obj [("data", Json.obj [("graph", Json.obj
        [("schema", Json.str "s"),
         ("relationships", Json.arr [Json.str "knows", Json.str "likes"])])])]) :=
  ⟨rfl, rfl, rfl, rfl, rfl, rfl, rfl, rfl, rfl, (by decide),
   get_graph_schema_aggregates sampleTransport "g" (Json.bool false)
     (Json.obj [("data", Json.null)])
     sampleRespFields sampleDataFields sampleGraphFields sampleEtFields sampleEdges
     rfl rfl rfl rfl rfl rfl rfl rfl rfl rfl rfl (by decide),
   rfl⟩
